import Mathlib

/-!
# Shallow embedding of the xstate remote-machine synchronization layer

This file embeds, in Lean 4, the parts of the repository relevant to the
synchronization protocol between an authoritative extension-host machine and
webview clients:

* the client-side reconciliation logic shared by `useRemoteMachine`
  (svelte/store variant) and `useRemoteMachineRunes` (rune variant):
  `handleSnapshot`, `send`, and the derived visible-state projection;
* the host-side `PubSubBroker` (`subscribe`, `publish`, unsubscribe,
  retained snapshots) and the webview-side message delivery of
  `WebviewPubSubAdapter`;
* the authoritative adapter wiring `wireAppMachineToBroker`
  (`publishSnapshot`, the inbound-events handler, the snapshot-request
  handler, and the initial publish).

JavaScript particulars are modelled explicitly: `null` is `Option.none`; the
truthiness test `!base` on a snapshot is `base = none` or a type-dependent
falsiness predicate `falsy : S → Bool` (for example `0`, `""` and `false` are
falsy for the corresponding primitive types, while objects are never falsy);
a function that may throw returns `Option` (`none` = an exception was raised
and propagates, since none of the embedded call sites contain `try/catch`
unless the source does).
-/

namespace XStateRemote

/-- `TrackedEvent` from `useRemoteMachine` / `useRemoteMachineRunes`:
a locally issued event together with its client sequence number. -/
structure TrackedEvent (E : Type) where
  event : E
  clientSeq : Int
deriving DecidableEq, Repr

/-- `RemoteSnapshot` (the versioned broadcast): the authoritative snapshot,
the server sequence number, and the optional echoed client sequence number
(`ackId`). `echoClientSeq = none` models the field being `undefined`. -/
structure RemoteSnapshot (S : Type) where
  snapshot : S
  serverSeq : Int
  echoClientSeq : Option Int
deriving DecidableEq, Repr

/-- The mutable state of one synchronization client, as held by the internal
stores of `useRemoteMachine` (`baseState`, `connected`, `pendingEvents`) and
the plain locals `clientSeqCounter` and `lastServerSeq`. -/
structure ClientState (S E : Type) where
  baseState : Option S
  connected : Bool
  pendingEvents : List (TrackedEvent E)
  clientSeqCounter : Int
  lastServerSeq : Int
deriving DecidableEq, Repr

/-- Client construction: `baseState` starts at `initialSnapshot ?? null`,
`connected` at `false`, the pending queue empty, `clientSeqCounter = 0` and
`lastServerSeq = -1`. -/
def initClient {S E : Type} (initialSnapshot : Option S) : ClientState S E :=
  { baseState := initialSnapshot
    connected := false
    pendingEvents := []
    clientSeqCounter := 0
    lastServerSeq := -1 }

/-- `handleSnapshot` from `useRemoteMachine` (identical logic in
`useRemoteMachineRunes`): discard the broadcast when
`serverSeq <= lastServerSeq`; otherwise record the new server sequence,
overwrite the base (confirmed) state, drop every pending event with
`clientSeq <= echoClientSeq` when an echo is present, and mark the client
connected. -/
def handleSnapshot {S E : Type} (st : ClientState S E) (rs : RemoteSnapshot S) :
    ClientState S E :=
  if rs.serverSeq ≤ st.lastServerSeq then
    st
  else
    { baseState := some rs.snapshot
      connected := true
      pendingEvents :=
        match rs.echoClientSeq with
        | none => st.pendingEvents
        | some n => st.pendingEvents.filter (fun e => n < e.clientSeq)
      clientSeqCounter := st.clientSeqCounter
      lastServerSeq := rs.serverSeq }

/-- `send` from `useRemoteMachine` / `useRemoteMachineRunes`: increment the
client sequence counter, append the tracked event to the pending queue, and
return the envelope handed to `publishEventFn`. -/
def send {S E : Type} (st : ClientState S E) (ev : E) :
    ClientState S E × TrackedEvent E :=
  let seq := st.clientSeqCounter + 1
  ({ st with
      clientSeqCounter := seq
      pendingEvents := st.pendingEvents ++ [⟨ev, seq⟩] },
   ⟨ev, seq⟩)

/-- Fold `handleSnapshot` over a list of incoming broadcasts. -/
def runBroadcasts {S E : Type} (st : ClientState S E) (l : List (RemoteSnapshot S)) :
    ClientState S E :=
  l.foldl handleSnapshot st

/-- Fold `send` over a list of locally issued events, keeping the state. -/
def runSends {S E : Type} (st : ClientState S E) (evs : List E) : ClientState S E :=
  evs.foldl (fun s e => (send s e).1) st

/-- The `version` values a client accepts (does not discard) while consuming
a list of broadcasts in order. -/
def acceptedVersions {S E : Type} (st : ClientState S E) :
    List (RemoteSnapshot S) → List Int
  | [] => []
  | rs :: rest =>
    if st.lastServerSeq < rs.serverSeq then
      rs.serverSeq :: acceptedVersions (E := E) (handleSnapshot st rs) rest
    else
      acceptedVersions (E := E) (handleSnapshot st rs) rest

/-- The derived visible-state computation of `useRemoteMachine` /
`useRemoteMachineRunes` with a non-throwing reducer: `null` when the base
state is `null` or falsy, the base state when no optimistic reducer is
configured or the pending queue is empty, otherwise the reducer folded left
over the pending events starting from the base state. -/
def visibleState {S E : Type} (falsy : S → Bool) (reducer : Option (S → E → S))
    (base : Option S) (pending : List (TrackedEvent E)) : Option S :=
  match base with
  | none => none
  | some b =>
    if falsy b then none
    else
      match reducer with
      | none => some b
      | some red =>
        if pending.isEmpty then some b
        else some (pending.foldl (fun acc te => red acc te.event) b)

/-- The same derived computation when the optimistic reducer may throw
(`none` result = exception): the source contains no `try/catch`, so a throw
inside `pending.reduce` propagates out of the derived computation, which is
modelled by the outer `Option` being `none`. -/
def visibleStateExc {S E : Type} (falsy : S → Bool)
    (reducer : Option (S → E → Option S))
    (base : Option S) (pending : List (TrackedEvent E)) : Option (Option S) :=
  match base with
  | none => some none
  | some b =>
    if falsy b then some none
    else
      match reducer with
      | none => some (some b)
      | some red =>
        if pending.isEmpty then some (some b)
        else (pending.foldlM (fun acc te => red acc te.event) b).map some

/-- A total reducer seen as a never-throwing fallible one. -/
def liftTotal {S E : Type} (t : S → E → S) : S → E → Option S :=
  fun s e => some (t s e)

/-- `useRemoteMachineRunes` picks its exposed `state` rune: the derived
optimistic projection when the consumer-supplied rune utilities provide
`derived`, and otherwise the base state rune itself (the fallback branch
`: baseStateRune`). -/
def exposedStateRunes {S E : Type} (hasDerived : Bool) (falsy : S → Bool)
    (reducer : Option (S → E → S)) (st : ClientState S E) : Option S :=
  if hasDerived then visibleState falsy reducer st.baseState st.pendingEvents
  else st.baseState

/-! ## PubSubBroker (extension host) and WebviewPubSubAdapter delivery

Handlers are identified by numbers (JavaScript `Set` iteration follows
insertion order, modelled by a duplicate-free list). Whether a given handler
throws on a given payload is a parameter `throws`; `publish` returns the
trace of handler invocations that actually happen. -/

/-- `as.startsWithL bs`: `as` is a prefix of `bs` (element-wise `==`). -/
def startsWithL {α : Type} [BEq α] : List α → List α → Bool
  | [], _ => true
  | _ :: _, [] => false
  | a :: as, b :: bs => a == b && startsWithL as bs

/-- `containsSub needle hay`: `needle` occurs contiguously inside `hay`. -/
def containsSub {α : Type} [BEq α] (needle : List α) : List α → Bool
  | [] => needle.isEmpty
  | a :: rest => startsWithL needle (a :: rest) || containsSub needle rest

/-- JavaScript `hay.includes(needle)` on strings. -/
def stringIncludes (needle hay : String) : Bool :=
  containsSub needle.toList hay.toList

/-- Look up a key in an association list (JavaScript `Map.get`). -/
def assocLookup {β : Type} (l : List (String × β)) (k : String) : Option β :=
  match l.find? (fun p => p.1 == k) with
  | some p => some p.2
  | none => none

/-- Overwrite (or add) a key in an association list (JavaScript `Map.set`). -/
def assocSet {β : Type} (l : List (String × β)) (k : String) (v : β) :
    List (String × β) :=
  if (l.find? (fun p => p.1 == k)).isSome then
    l.map (fun p => if p.1 == k then (k, v) else p)
  else
    l ++ [(k, v)]

/-- Remove a key from an association list (JavaScript `Map.delete`). -/
def assocDelete {β : Type} (l : List (String × β)) (k : String) :
    List (String × β) :=
  l.filter (fun p => !(p.1 == k))

/-- The state of a `PubSubBroker`: retained snapshots per topic, host-side
topic handlers per topic (handler ids in attachment order), and the attached
webview panels (panel ids). -/
structure BrokerState (P : Type) where
  retainedSnapshots : List (String × P)
  topicHandlers : List (String × List Nat)
  webviews : List Nat
deriving DecidableEq, Repr

/-- A broker with nothing retained, no handlers and no webviews. -/
def emptyBroker {P : Type} : BrokerState P :=
  { retainedSnapshots := [], topicHandlers := [], webviews := [] }

/-- JavaScript `Set.forEach(handler => handler(data))` with no `try/catch`
(`PubSubBroker.publish`): handlers run in order until one throws; a throw
aborts the iteration and propagates. Returns the handlers actually invoked
and whether the loop completed normally. -/
def forEachNoCatch (throws : Nat → Bool) : List Nat → List Nat × Bool
  | [] => ([], true)
  | h :: rest =>
    if throws h then ([h], false)
    else
      let r := forEachNoCatch throws rest
      (h :: r.1, r.2)

/-- The handler loop of `WebviewPubSubAdapter.setupMessageListener`, where
each `handler(message.data)` is wrapped in its own `try/catch` (the catch
only logs): every handler is invoked regardless of earlier throws. -/
def forEachCatchEach (throws : Nat → Bool) : List Nat → List Nat
  | [] => []
  | h :: rest => h :: forEachCatchEach throws rest

/-- What one `PubSubBroker.publish` call produces. -/
structure PublishResult (P : Type) where
  state : BrokerState P
  hostInvocations : List Nat
  webviewMessages : List Nat
  completed : Bool
deriving DecidableEq, Repr

/-- `PubSubBroker.publish`: retain the payload when the topic contains
`":snapshot"`, then invoke the host-side handlers for the topic (bare
`forEach`, so a throwing handler aborts the rest of the call), then — only
if no handler threw — post the message to every attached webview. -/
def BrokerState.publish {P : Type} (throws : Nat → P → Bool)
    (st : BrokerState P) (topic : String) (p : P) : PublishResult P :=
  let retained :=
    if stringIncludes ":snapshot" topic then assocSet st.retainedSnapshots topic p
    else st.retainedSnapshots
  let hs := (assocLookup st.topicHandlers topic).getD []
  let r := forEachNoCatch (fun h => throws h p) hs
  { state := { st with retainedSnapshots := retained }
    hostInvocations := r.1
    webviewMessages := if r.2 then st.webviews else []
    completed := r.2 }

/-- `PubSubBroker.subscribe`: add the handler to the topic's set and, when a
retained snapshot exists for the topic, invoke the new handler with it once,
synchronously, before returning. The second component is that immediate
delivery (`none` = the handler was not invoked). -/
def BrokerState.subscribe {P : Type} (st : BrokerState P) (topic : String)
    (h : Nat) : BrokerState P × Option P :=
  let existing := (assocLookup st.topicHandlers topic).getD []
  let handlers := if h ∈ existing then existing else existing ++ [h]
  ({ st with topicHandlers := assocSet st.topicHandlers topic handlers },
   assocLookup st.retainedSnapshots topic)

/-- The unsubscribe closure returned by `PubSubBroker.subscribe`: delete the
handler from the topic's set; when the set becomes empty, delete the topic
entry. The retained snapshots are not touched. -/
def BrokerState.unsubscribe {P : Type} (st : BrokerState P) (topic : String)
    (h : Nat) : BrokerState P :=
  match assocLookup st.topicHandlers topic with
  | none => st
  | some handlers =>
    let remaining := handlers.filter (fun x => !(x == h))
    if remaining.isEmpty then
      { st with topicHandlers := assocDelete st.topicHandlers topic }
    else
      { st with topicHandlers := assocSet st.topicHandlers topic remaining }

/-! ## Authoritative adapter (`wireAppMachineToBroker`)

The xstate actor is summarized by its snapshot and the externally supplied
transition function `t : S → E → Option S` (`none` = the transition threw;
`liftTotal` embeds a total transition). `publishSnapshot` pre-increments the
`serverSeqCounter` and publishes exactly one `RemoteSnapshot`. -/

/-- An inbound action envelope as carried on the events topic. -/
structure EventWithSeq (E : Type) where
  event : E
  clientSeq : Int
deriving DecidableEq, Repr

/-- The adapter's state: the actor's current snapshot, the `serverSeqCounter`
local, and the `lastClientSeq` local. -/
structure AdapterState (S : Type) where
  snapshot : S
  serverSeqCounter : Int
  lastClientSeq : Option Int
deriving DecidableEq, Repr

/-- The two broker subscriptions of `wireAppMachineToBroker`: an inbound
action envelope on the events topic, or a snapshot request. -/
inductive AdapterOp (E : Type) where
  | inbound (ev : EventWithSeq E)
  | request
deriving DecidableEq, Repr

/-- One adapter reaction, returning the new adapter state and the broadcasts
published (as a list; each handler publishes at most one).

* `inbound ev`: record `lastClientSeq := ev.clientSeq`, run the transition
  (`actor.send`); when it throws, the handler aborts before
  `publishSnapshot`, so nothing is published and neither the snapshot nor
  the counter changes; otherwise publish
  `{snapshot := newState, serverSeq := counter + 1, echoClientSeq := ev.clientSeq}`.
* `request`: publish the current snapshot under `counter + 1` with
  `lastClientSeq` echoed. -/
def adapterStep {S E : Type} (t : S → E → Option S) (st : AdapterState S) :
    AdapterOp E → AdapterState S × List (RemoteSnapshot S)
  | .inbound ev =>
    let st1 := { st with lastClientSeq := some ev.clientSeq }
    match t st1.snapshot ev.event with
    | none => (st1, [])
    | some s' =>
      let c := st1.serverSeqCounter + 1
      ({ st1 with snapshot := s', serverSeqCounter := c },
       [⟨s', c, some ev.clientSeq⟩])
  | .request =>
    let c := st.serverSeqCounter + 1
    ({ st with serverSeqCounter := c }, [⟨st.snapshot, c, st.lastClientSeq⟩])

/-- Fold `adapterStep` over a list of operations, concatenating the
broadcasts in publication order. -/
def runAdapter {S E : Type} (t : S → E → Option S) (st : AdapterState S) :
    List (AdapterOp E) → AdapterState S × List (RemoteSnapshot S)
  | [] => (st, [])
  | op :: ops =>
    let r := adapterStep t st op
    let rest := runAdapter t r.1 ops
    (rest.1, r.2 ++ rest.2)

/-- `wireAppMachineToBroker` start-up followed by a list of operations: the
adapter starts with counter `0` and no `lastClientSeq`, immediately publishes
the initial snapshot (`publishSnapshot(actor.getSnapshot())`, no echo) under
version `1`, then reacts to the operations. Returns the final state and all
broadcasts in publication order. -/
def wireRun {S E : Type} (t : S → E → Option S) (s0 : S)
    (ops : List (AdapterOp E)) : AdapterState S × List (RemoteSnapshot S) :=
  let st1 : AdapterState S := ⟨s0, 1, none⟩
  let rest := runAdapter t st1 ops
  (rest.1, ⟨s0, 1, none⟩ :: rest.2)

/-! ## Basic lemmas about `handleSnapshot` -/

/-- A stale broadcast (`serverSeq ≤ lastServerSeq`) leaves the client state
untouched. -/
lemma handleSnapshot_stale {S E : Type} (st : ClientState S E)
    (rs : RemoteSnapshot S) (h : rs.serverSeq ≤ st.lastServerSeq) :
    handleSnapshot st rs = st := by
  simp [handleSnapshot, h]

/-- An accepted broadcast records its `serverSeq` as the new
`lastServerSeq`. -/
lemma handleSnapshot_accept_lastServerSeq {S E : Type} (st : ClientState S E)
    (rs : RemoteSnapshot S) (h : st.lastServerSeq < rs.serverSeq) :
    (handleSnapshot st rs).lastServerSeq = rs.serverSeq := by
  simp [handleSnapshot, not_le.mpr h]

/-- Every version a client accepts is strictly above the `lastServerSeq` it
started with. -/
lemma acceptedVersions_gt {S E : Type} :
    ∀ (l : List (RemoteSnapshot S)) (st : ClientState S E),
      ∀ v ∈ acceptedVersions st l, st.lastServerSeq < v := by
  intro l
  induction l with
  | nil => intro st v hv; simp [acceptedVersions] at hv
  | cons rs rest ih =>
    intro st v hv
    by_cases h : st.lastServerSeq < rs.serverSeq
    · rw [acceptedVersions, if_pos h] at hv
      rcases List.mem_cons.mp hv with hv | hv
      · exact hv ▸ h
      · have := ih (handleSnapshot st rs) v hv
        rw [handleSnapshot_accept_lastServerSeq st rs h] at this
        exact lt_trans h this
    · rw [acceptedVersions, if_neg h] at hv
      rw [handleSnapshot_stale st rs (not_lt.mp h)] at hv
      exact ih st v hv

/-- The versions a client accepts form a strictly increasing sequence. -/
lemma acceptedVersions_pairwise {S E : Type} :
    ∀ (l : List (RemoteSnapshot S)) (st : ClientState S E),
      (acceptedVersions st l).Pairwise (· < ·) := by
  intro l
  induction l with
  | nil => intro st; simp [acceptedVersions]
  | cons rs rest ih =>
    intro st
    by_cases h : st.lastServerSeq < rs.serverSeq
    · rw [acceptedVersions, if_pos h]
      refine List.pairwise_cons.mpr ⟨?_, ih (handleSnapshot st rs)⟩
      intro v hv
      have := acceptedVersions_gt rest (handleSnapshot st rs) v hv
      rwa [handleSnapshot_accept_lastServerSeq st rs h] at this
    · rw [acceptedVersions, if_neg h]
      rw [handleSnapshot_stale st rs (not_lt.mp h)]
      exact ih st

/-! ## Claim theorems -/

/-- C1: a broadcast whose version is at most the highest version previously
seen is discarded with no change to confirmed state, pending queue,
connected flag, or highest-seen version; the sequence of accepted versions
is strictly increasing for every client; and feeding versions `[1,3,2,5]`
to a fresh client yields accepted versions `[1,3,5]`. -/
theorem stale_broadcast_discarded_and_versions_increase {S E : Type}
    (st : ClientState S E) (rs : RemoteSnapshot S)
    (h : rs.serverSeq ≤ st.lastServerSeq) :
    handleSnapshot st rs = st ∧
    (∀ (st2 : ClientState S E) (l : List (RemoteSnapshot S)),
        (acceptedVersions st2 l).Pairwise (· < ·)) ∧
    acceptedVersions (E := Unit) (initClient (none : Option Nat))
      [⟨10, 1, none⟩, ⟨30, 3, none⟩, ⟨20, 2, none⟩, ⟨50, 5, none⟩]
      = [1, 3, 5] := by
  refine ⟨handleSnapshot_stale st rs h, fun st2 l => acceptedVersions_pairwise l st2, ?_⟩
  decide

/-- Witness for C1 at a concrete stale broadcast and a concrete client run. -/
theorem stale_broadcast_discarded_and_versions_increase_witness :
    ((2 : Int) ≤ 3) ∧
    handleSnapshot (⟨some 5, true, [], 0, 3⟩ : ClientState Nat Unit) ⟨9, 2, none⟩
      = ⟨some 5, true, [], 0, 3⟩ ∧
    (acceptedVersions (E := Unit) (initClient (none : Option Nat))
        [⟨10, 1, none⟩, ⟨30, 3, none⟩, ⟨20, 2, none⟩, ⟨50, 5, none⟩]).Pairwise
        (· < ·) ∧
    acceptedVersions (E := Unit) (initClient (none : Option Nat))
      [⟨10, 1, none⟩, ⟨30, 3, none⟩, ⟨20, 2, none⟩, ⟨50, 5, none⟩]
      = [1, 3, 5] :=
  have h := stale_broadcast_discarded_and_versions_increase
    (⟨some 5, true, [], 0, 3⟩ : ClientState Nat Unit) ⟨9, 2, none⟩ (by decide)
  ⟨by decide, h.1,
   h.2.1 (initClient (none : Option Nat))
     [⟨10, 1, none⟩, ⟨30, 3, none⟩, ⟨20, 2, none⟩, ⟨50, 5, none⟩],
   h.2.2⟩

/-- C2: an accepted broadcast carrying `echoClientSeq = n` retires exactly
the pending entries with `clientSeq ≤ n`, keeping the rest in order; after
sending three events (ids 1, 2, 3) and accepting a broadcast with ack 2, the
pending queue holds exactly the entry with id 3. -/
theorem cumulative_acknowledgment {S E : Type} (st : ClientState S E)
    (rs : RemoteSnapshot S) (n : Int)
    (h1 : st.lastServerSeq < rs.serverSeq) (h2 : rs.echoClientSeq = some n) :
    (handleSnapshot st rs).pendingEvents
      = st.pendingEvents.filter (fun e => n < e.clientSeq) ∧
    (handleSnapshot (runSends (initClient (none : Option Nat)) [10, 20, 30])
      ⟨0, 1, some 2⟩).pendingEvents = [⟨30, 3⟩] := by
  constructor
  · simp [handleSnapshot, not_le.mpr h1, h2]
  · decide

/-- Witness for C2 at a concrete pending queue `[1,2,3]` and ack 2. -/
theorem cumulative_acknowledgment_witness :
    ((-1 : Int) < 1 ∧ (some 2 : Option Int) = some 2) ∧
    ((handleSnapshot
        (⟨none, false, [⟨10, 1⟩, ⟨20, 2⟩, ⟨30, 3⟩], 3, -1⟩ : ClientState Nat Nat)
        ⟨0, 1, some 2⟩).pendingEvents
      = ([⟨10, 1⟩, ⟨20, 2⟩, ⟨30, 3⟩] : List (TrackedEvent Nat)).filter
          (fun e => 2 < e.clientSeq) ∧
     (handleSnapshot (runSends (initClient (none : Option Nat)) [10, 20, 30])
        ⟨0, 1, some 2⟩).pendingEvents = [⟨30, 3⟩]) :=
  ⟨⟨by decide, rfl⟩,
   cumulative_acknowledgment
     (⟨none, false, [⟨10, 1⟩, ⟨20, 2⟩, ⟨30, 3⟩], 3, -1⟩ : ClientState Nat Nat)
     ⟨0, 1, some 2⟩ 2 (by decide) rfl⟩

/-- `runSends` never touches the base (confirmed) state: `send` only appends
to the pending queue and bumps the counter. -/
lemma runSends_baseState {S E : Type} :
    ∀ (evs : List E) (st : ClientState S E),
      (runSends st evs).baseState = st.baseState := by
  intro evs
  induction evs with
  | nil => intro st; rfl
  | cons e evs ih =>
    intro st
    rw [runSends, List.foldl_cons]
    exact ih ((send st e).1)

/-- Folding a never-throwing reducer with `foldlM` is the plain fold. -/
lemma foldlM_liftTotal {S E : Type} (p : S → E → S) :
    ∀ (l : List (TrackedEvent E)) (b : S),
      List.foldlM (fun acc te => liftTotal p acc te.event) b l
        = some (List.foldl (fun acc te => p acc te.event) b l) := by
  intro l
  induction l with
  | nil => intro b; rfl
  | cons a l ih => intro b; simpa [liftTotal] using ih (p b a.event)

/-- The throwing-aware visible-state computation agrees with the plain one
on reducers that never throw. -/
lemma visibleStateExc_liftTotal {S E : Type} (falsy : S → Bool) (p : S → E → S)
    (base : Option S) (pending : List (TrackedEvent E)) :
    visibleStateExc falsy (some (liftTotal p)) base pending
      = some (visibleState falsy (some p) base pending) := by
  cases base with
  | none => rfl
  | some b =>
    by_cases hb : falsy b
    · simp [visibleStateExc, visibleState, hb]
    · by_cases hp : pending.isEmpty
      · simp [visibleStateExc, visibleState, hb, hp]
      · simp [visibleStateExc, visibleState, hb, hp, foldlM_liftTotal]

/-- Counterexample to C3 as stated: with the JavaScript-falsy confirmed
state `0` (snapshot type `number`), the derived computation takes the
`if (!$baseState) return null` branch, so the visible state is `null`
rather than the fold (`p(0, 3) = 3`), and with no prediction configured it
is `null` rather than the confirmed `0`. -/
theorem visible_fold_counterexample :
    visibleState (fun n : Nat => n == 0) (some (fun s e => s + e)) (some 0)
        [⟨3, 1⟩] = none ∧
    ([⟨3, 1⟩] : List (TrackedEvent Nat)).foldl (fun acc te => acc + te.event) 0
        = 3 ∧
    (none : Option Nat) ≠ some 3 ∧
    visibleState (fun n : Nat => n == 0) (none : Option (Nat → Nat → Nat))
        (some 0) ([] : List (TrackedEvent Nat)) = none ∧
    (none : Option Nat) ≠ some 0 := by
  decide

/-- C3 (amended): for every confirmed state the snapshot type treats as
truthy, the visible state is the prediction function folded left over the
pending queue in issuance order, and with no prediction function configured
it equals the confirmed state. (For a falsy confirmed state — impossible
for object-typed snapshots — the visible state is `null` instead.) -/
theorem visible_state_is_fold {S E : Type} (falsy : S → Bool) (p : S → E → S)
    (b : S) (pending : List (TrackedEvent E)) (h : falsy b = false) :
    visibleState falsy (some p) (some b) pending
      = some (pending.foldl (fun acc te => p acc te.event) b) ∧
    visibleState falsy none (some b) pending = some b := by
  constructor
  · cases pending with
    | nil => simp [visibleState, h]
    | cons a l => simp [visibleState, h]
  · simp [visibleState, h]

/-- Witness for C3 (amended): confirmed state `5`, queue `[1, 2]`,
prediction `p(s, e) = s + e`, visible state `p(p(5,1),2) = 8`. -/
theorem visible_state_is_fold_witness :
    ((fun n : Nat => n == 0) 5 = false) ∧
    (visibleState (fun n : Nat => n == 0) (some (fun s e => s + e)) (some 5)
        [⟨1, 1⟩, ⟨2, 2⟩]
      = some (([⟨1, 1⟩, ⟨2, 2⟩] : List (TrackedEvent Nat)).foldl
          (fun acc te => acc + te.event) 5) ∧
     visibleState (fun n : Nat => n == 0) none (some 5) [⟨1, 1⟩, ⟨2, 2⟩]
      = some 5) :=
  ⟨by decide,
   visible_state_is_fold (fun n : Nat => n == 0) (fun s e => s + e) 5
     [⟨1, 1⟩, ⟨2, 2⟩] (by decide)⟩

/-- Counterexample to C7 as stated: a throwing prediction over a non-empty
pending queue makes the derived computation throw (`none`), not fall back
to the confirmed state `5` (`some (some 5)`), since `pending.reduce` is not
wrapped in any `try/catch`. -/
theorem prediction_throw_counterexample :
    visibleStateExc (fun _ : Nat => false)
        (some (fun _ _ => (none : Option Nat))) (some 5) [⟨0, 1⟩] = none ∧
    (none : Option (Option Nat)) ≠ some (some 5) := by
  decide

/-- C7 (amended): if the prediction function throws while the visible state
is recomputed over a non-empty pending queue, the exception propagates out
of the derived computation into the reactive layer (no fallback to the
confirmed state); the recomputation is a pure projection, so the confirmed
state and the pending queue are unchanged by the failure. -/
theorem prediction_throw_propagates {S E : Type} (falsy : S → Bool)
    (red : S → E → Option S) (b : S) (pending : List (TrackedEvent E))
    (h1 : falsy b = false)
    (h2 : pending.foldlM (fun acc te => red acc te.event) b = none) :
    visibleStateExc falsy (some red) (some b) pending = none := by
  cases pending with
  | nil => simp at h2
  | cons a l => simp [visibleStateExc, h1, h2]

/-- Witness for C7 (amended) at an always-throwing reducer. -/
theorem prediction_throw_propagates_witness :
    ((fun _ : Nat => false) 5 = false ∧
      ([⟨0, 1⟩] : List (TrackedEvent Nat)).foldlM
        (fun acc te => (fun _ _ => (none : Option Nat)) acc te.event) 5 = none) ∧
    visibleStateExc (fun _ : Nat => false)
        (some (fun _ _ => (none : Option Nat))) (some 5) [⟨0, 1⟩] = none :=
  ⟨⟨by decide, by decide⟩,
   prediction_throw_propagates (fun _ : Nat => false)
     (fun _ _ => (none : Option Nat)) 5 [⟨0, 1⟩] (by decide) (by decide)⟩

/-- C9: when the consumer-supplied rune utilities omit `derived`,
`useRemoteMachineRunes` exposes the base state rune itself: for every
configured optimistic reducer and every pending queue, the exposed state is
exactly the base (confirmed) state — the reducer is never applied — and
after an accepted broadcast it is that broadcast's snapshot. -/
theorem runes_without_derived_expose_base {S E : Type} (falsy : S → Bool)
    (reducer : S → E → S) (st : ClientState S E) (rs : RemoteSnapshot S)
    (h : st.lastServerSeq < rs.serverSeq) :
    exposedStateRunes false falsy (some reducer) st = st.baseState ∧
    exposedStateRunes false falsy (some reducer) (handleSnapshot st rs)
      = some rs.snapshot := by
  refine ⟨rfl, ?_⟩
  simp [exposedStateRunes, handleSnapshot, not_le.mpr h]

/-- Witness for C9: a client with a non-empty pending queue and a non-trivial
reducer, with `derived` unavailable. -/
theorem runes_without_derived_expose_base_witness :
    ((-1 : Int) < 1) ∧
    (exposedStateRunes false (fun n : Nat => n == 0) (some (fun s e => s + e))
        (⟨some 5, false, [⟨1, 1⟩], 1, -1⟩ : ClientState Nat Nat)
      = some 5 ∧
     exposedStateRunes false (fun n : Nat => n == 0) (some (fun s e => s + e))
        (handleSnapshot (⟨some 5, false, [⟨1, 1⟩], 1, -1⟩ : ClientState Nat Nat)
          ⟨9, 1, none⟩)
      = some 9) :=
  ⟨by decide,
   runes_without_derived_expose_base (fun n : Nat => n == 0) (fun s e => s + e)
     (⟨some 5, false, [⟨1, 1⟩], 1, -1⟩ : ClientState Nat Nat) ⟨9, 1, none⟩
     (by decide)⟩

/-- C10: a client created without an `initialSnapshot` has `baseState = null`
until the first accepted broadcast no matter how many events were sent, its
exposed visible state is `null`, and the prediction function is never
applied when the base state is `null` or falsy (the visible state is `null`
for every reducer and every pending queue). -/
theorem no_initial_snapshot_state_null {S E : Type} (falsy : S → Bool)
    (reducer : Option (S → E → S)) (evs : List E) :
    (runSends (initClient (none : Option S)) evs).baseState = none ∧
    visibleState falsy reducer
      (runSends (initClient (none : Option S)) evs).baseState
      (runSends (initClient (none : Option S)) evs).pendingEvents = none ∧
    (∀ pending : List (TrackedEvent E),
        visibleState falsy reducer none pending = none) ∧
    (∀ (b : S) (pending : List (TrackedEvent E)), falsy b = true →
        visibleState falsy reducer (some b) pending = none) := by
  have hbase := runSends_baseState evs (initClient (S := S) (E := E) none)
  refine ⟨hbase, ?_, fun pending => rfl, fun b pending hb => ?_⟩
  · rw [hbase]; rfl
  · simp [visibleState, hb]

/-- Witness for C10: two sends with an optimistic reducer configured and no
initial snapshot, plus the `null` and falsy-base cases at concrete queues. -/
theorem no_initial_snapshot_state_null_witness :
    (runSends (initClient (none : Option Nat)) [1, 2]).baseState = none ∧
    visibleState (fun n : Nat => n == 0) (some (fun s e => s + e))
      (runSends (initClient (none : Option Nat)) [1, 2]).baseState
      (runSends (initClient (none : Option Nat)) [1, 2]).pendingEvents = none ∧
    visibleState (fun n : Nat => n == 0) (some (fun s e => s + e)) none
      [⟨3, 3⟩] = none ∧
    ((0 : Nat) == 0) = true ∧
    visibleState (fun n : Nat => n == 0) (some (fun s e => s + e)) (some 0)
      [⟨3, 3⟩] = none :=
  have h := no_initial_snapshot_state_null (fun n : Nat => n == 0)
    (some (fun s e => s + e)) [1, 2]
  ⟨h.1, h.2.1, h.2.2.1 [⟨3, 3⟩], by decide, h.2.2.2 0 [⟨3, 3⟩] (by decide)⟩

/-- Counterexample to C6 as stated: with a transition that throws, the
inbound-events handler of `wireAppMachineToBroker` aborts at `actor.send`
and never reaches `publishSnapshot` — no broadcast at all is published
(in particular not the claimed `{value: unchangedState, ackId: id}`). -/
theorem transition_throw_no_broadcast_counterexample :
    adapterStep (fun _ _ => (none : Option Nat)) ⟨0, 0, none⟩
        (.inbound ⟨(7 : Nat), 1⟩) = (⟨0, 0, some 1⟩, []) ∧
    ([] : List (RemoteSnapshot Nat)) ≠ [⟨0, 1, some 1⟩] := by
  decide

/-- C6 (amended): if the transition function throws while the adapter
processes an inbound action envelope, the handler aborts before
`publishSnapshot`: the authoritative state and the version counter are
unchanged (only the `lastClientSeq` local was already updated), and no
broadcast is published — so the originating client does not retire the
failed action's pending entry. -/
theorem transition_throw_aborts_handler {S E : Type} (t : S → E → Option S)
    (st : AdapterState S) (ev : EventWithSeq E)
    (h : t st.snapshot ev.event = none) :
    adapterStep t st (.inbound ev)
      = ({ st with lastClientSeq := some ev.clientSeq }, []) := by
  simp [adapterStep, h]

/-- Witness for C6 (amended) at an always-throwing transition. -/
theorem transition_throw_aborts_handler_witness :
    ((fun _ _ => (none : Option Nat)) (0 : Nat) (7 : Nat) = none) ∧
    adapterStep (fun _ _ => (none : Option Nat))
        (⟨0, 4, some 9⟩ : AdapterState Nat) (.inbound ⟨(7 : Nat), 10⟩)
      = (⟨0, 4, some 10⟩, []) :=
  ⟨rfl,
   transition_throw_aborts_handler (fun _ _ => (none : Option Nat))
     (⟨0, 4, some 9⟩ : AdapterState Nat) ⟨(7 : Nat), 10⟩ rfl⟩

/-- With a non-throwing transition, every adapter reaction bumps the counter
by exactly one and publishes exactly one broadcast carrying the new counter
as its version. -/
lemma adapterStep_total {S E : Type} (t : S → E → S) (st : AdapterState S)
    (op : AdapterOp E) :
    (adapterStep (liftTotal t) st op).1.serverSeqCounter
      = st.serverSeqCounter + 1 ∧
    (adapterStep (liftTotal t) st op).2.map RemoteSnapshot.serverSeq
      = [st.serverSeqCounter + 1] := by
  cases op <;> simp [adapterStep, liftTotal]

/-- Every version published during a run of a non-throwing adapter is
strictly above the counter the run started from. -/
lemma runAdapter_total_gt {S E : Type} (t : S → E → S) :
    ∀ (ops : List (AdapterOp E)) (st : AdapterState S),
      ∀ v ∈ (runAdapter (liftTotal t) st ops).2.map RemoteSnapshot.serverSeq,
        st.serverSeqCounter < v := by
  intro ops
  induction ops with
  | nil => intro st v hv; simp [runAdapter] at hv
  | cons op ops ih =>
    intro st v hv
    rw [runAdapter] at hv
    rw [List.map_append] at hv
    rcases List.mem_append.mp hv with hv | hv
    · rw [(adapterStep_total t st op).2] at hv
      rcases List.mem_singleton.mp hv with rfl
      exact lt_add_one _
    · have := ih (adapterStep (liftTotal t) st op).1 v hv
      rw [(adapterStep_total t st op).1] at this
      exact lt_trans (lt_add_one _) this

/-- The versions published during a run of a non-throwing adapter are
strictly increasing. -/
lemma runAdapter_total_pairwise {S E : Type} (t : S → E → S) :
    ∀ (ops : List (AdapterOp E)) (st : AdapterState S),
      ((runAdapter (liftTotal t) st ops).2.map
        RemoteSnapshot.serverSeq).Pairwise (· < ·) := by
  intro ops
  induction ops with
  | nil => intro st; simp [runAdapter]
  | cons op ops ih =>
    intro st
    rw [runAdapter, List.map_append, (adapterStep_total t st op).2]
    refine List.pairwise_append.mpr
      ⟨List.pairwise_singleton _ _, ih _, ?_⟩
    intro a ha b hb
    rcases List.mem_singleton.mp ha with rfl
    have := runAdapter_total_gt t ops (adapterStep (liftTotal t) st op).1 b hb
    rwa [(adapterStep_total t st op).1] at this

/-- C4: for every inbound action envelope the adapter applies the
transition to the current authoritative state and publishes exactly one
broadcast `{value := newState, version := counter + 1, ackId := clientSeq}`;
and across a whole run of `wireAppMachineToBroker` — initial publish,
action-triggered publishes and snapshot-request publishes — the versions it
assigns are strictly increasing. -/
theorem adapter_broadcast_shape_and_monotonic_versions {S E : Type}
    (t : S → E → S) (st : AdapterState S) (ev : EventWithSeq E) (s0 : S)
    (ops : List (AdapterOp E)) :
    adapterStep (liftTotal t) st (.inbound ev)
      = ({ snapshot := t st.snapshot ev.event
           serverSeqCounter := st.serverSeqCounter + 1
           lastClientSeq := some ev.clientSeq },
         [⟨t st.snapshot ev.event, st.serverSeqCounter + 1, some ev.clientSeq⟩]) ∧
    ((wireRun (liftTotal t) s0 ops).2.map
        RemoteSnapshot.serverSeq).Pairwise (· < ·) := by
  constructor
  · rfl
  · rw [wireRun]
    simp only [List.map_cons]
    refine List.pairwise_cons.mpr ⟨?_, runAdapter_total_pairwise t ops _⟩
    intro v hv
    exact runAdapter_total_gt t ops ⟨s0, 1, none⟩ v hv

/-! ## Association-list lemmas for the broker -/

/-- Looking up past a non-matching head. -/
lemma assocLookup_cons_ne {β : Type} (p : String × β) (m : List (String × β))
    (k : String) (hp : (p.1 == k) = false) :
    assocLookup (p :: m) k = assocLookup m k := by
  simp [assocLookup, List.find?_cons, hp]

/-- `assocSet` commutes with a non-matching head. -/
lemma assocSet_cons_ne {β : Type} (p : String × β) (l : List (String × β))
    (k : String) (v : β) (hp : (p.1 == k) = false) :
    assocSet (p :: l) k v = p :: assocSet l k v := by
  have hne : p.1 ≠ k := by simpa using hp
  simp only [assocSet, List.find?_cons, hp, cond_false]
  by_cases hs : (l.find? fun q => q.1 == k).isSome
  · simp [hs, hp]
    intro hk
    exact absurd hk hne
  · simp [hs]

/-- JavaScript `Map.set` followed by `Map.get` on the same key returns the
value just stored. -/
lemma assocLookup_assocSet {β : Type} :
    ∀ (l : List (String × β)) (k : String) (v : β),
      assocLookup (assocSet l k v) k = some v := by
  intro l k v
  induction l with
  | nil => simp [assocSet, assocLookup]
  | cons p l ih =>
    by_cases hp : (p.1 == k) = true
    · have hk : p.1 = k := eq_of_beq hp
      simp [assocSet, assocLookup, List.find?_cons, hp, hk]
    · rw [assocSet_cons_ne p l k v (by simpa using hp),
        assocLookup_cons_ne p _ k (by simpa using hp)]
      exact ih

/-- Unsubscribing never touches the retained snapshots. -/
lemma unsubscribe_retained {P : Type} (st : BrokerState P) (topic : String)
    (h : Nat) :
    (st.unsubscribe topic h).retainedSnapshots = st.retainedSnapshots := by
  rcases hl : assocLookup st.topicHandlers topic with _ | handlers
  · simp [BrokerState.unsubscribe, hl]
  · by_cases he : (handlers.filter (fun x => !(x == h))).isEmpty
    · simp [BrokerState.unsubscribe, hl, he]
    · simp [BrokerState.unsubscribe, hl, he]

/-- C5: publishing on a retention (`":snapshot"`) channel stores the payload
as the retained value; a subsequent subscribe invokes the new handler
exactly once, synchronously, with the retained (most recently published)
payload; unsubscribing never clears the retained value; and in the full
late-joiner scenario — subscribe, publish 10, publish 20, last subscriber
unsubscribes, new subscriber joins — the new subscriber synchronously
receives 20 with no snapshot request involved. -/
theorem retained_value_replayed_to_late_subscriber {P : Type}
    (throws : Nat → P → Bool) (st st2 : BrokerState P) (topic : String)
    (p : P) (h hid : Nat)
    (hret : stringIncludes ":snapshot" topic = true)
    (hlook : assocLookup st2.retainedSnapshots topic = some p) :
    assocLookup (st.publish throws topic p).state.retainedSnapshots topic
      = some p ∧
    (st2.subscribe topic hid).2 = some p ∧
    (st.unsubscribe topic h).retainedSnapshots = st.retainedSnapshots ∧
    (let t := "machine:app:snapshot"
     let s1 := ((emptyBroker : BrokerState Nat).subscribe t 0).1
     let r1 := s1.publish (fun _ _ => false) t 10
     let r2 := r1.state.publish (fun _ _ => false) t 20
     let s2 := r2.state.unsubscribe t 0
     (s2.subscribe t 1).2) = some 20 := by
  refine ⟨?_, ?_, unsubscribe_retained st topic h, by decide⟩
  · simp only [BrokerState.publish, hret, if_true]
    exact assocLookup_assocSet st.retainedSnapshots topic p
  · simp [BrokerState.subscribe, hlook]

/-- Witness for C5 on a concrete broker whose only subscriber has already
unsubscribed. -/
theorem retained_value_replayed_to_late_subscriber_witness :
    (stringIncludes ":snapshot" "machine:app:snapshot" = true ∧
      assocLookup [("machine:app:snapshot", (20 : Nat))] "machine:app:snapshot"
        = some 20) ∧
    (assocLookup
        ((emptyBroker : BrokerState Nat).publish (fun _ _ => false)
          "machine:app:snapshot" 20).state.retainedSnapshots
        "machine:app:snapshot" = some 20 ∧
      ((⟨[("machine:app:snapshot", 20)], [], []⟩ : BrokerState Nat).subscribe
        "machine:app:snapshot" 1).2 = some 20 ∧
      ((emptyBroker : BrokerState Nat).unsubscribe "machine:app:snapshot" 0).retainedSnapshots
        = (emptyBroker : BrokerState Nat).retainedSnapshots ∧
      (let t := "machine:app:snapshot"
       let s1 := ((emptyBroker : BrokerState Nat).subscribe t 0).1
       let r1 := s1.publish (fun _ _ => false) t 10
       let r2 := r1.state.publish (fun _ _ => false) t 20
       let s2 := r2.state.unsubscribe t 0
       (s2.subscribe t 1).2) = some 20) :=
  ⟨⟨by decide, by decide⟩,
   retained_value_replayed_to_late_subscriber (fun _ _ => false)
     (emptyBroker : BrokerState Nat)
     (⟨[("machine:app:snapshot", 20)], [], []⟩ : BrokerState Nat)
     "machine:app:snapshot" 20 0 1 (by decide) (by decide)⟩

/-- C8 is violated by `PubSubBroker.publish` (a bug relative to the relay
contract): with handlers `0` and `1` attached to a channel and handler `0`
throwing, the bare `handlers.forEach(handler => handler(data))` invokes only
handler `0`; the exception aborts the publish (handler `1` and the attached
webview never receive the payload). The webview-side
`WebviewPubSubAdapter` listener, which wraps each handler in `try/catch`,
does deliver to both handlers. -/
theorem broker_handler_throw_aborts_delivery :
    (let st : BrokerState Nat :=
       { emptyBroker with
          topicHandlers := [("machine:app:events", [0, 1])], webviews := [7] }
     let r := st.publish (fun hnd _ => hnd == 0) "machine:app:events" 5
     r.hostInvocations = [0] ∧ r.completed = false ∧ r.webviewMessages = []) ∧
    forEachCatchEach (fun hnd => hnd == 0) [0, 1] = [0, 1] := by
  decide

end XStateRemote
